import Mathlib

/-
Verification of the `Document` node implementation of an in-memory DOM
(`src/dom/Document.ts`, with an earlier inline variant of the same class).

The document tree is shallowly embedded: a node is a value of the inductive
type `XNode`, children are carried inline, the owner document is identified
by a numeric id (`Nat`), and JavaScript exceptions become the error side of
`Except DOMErr`.  Supporting classes that are not part of the given source
(`Node.cloneNode` of the non-document variants, `Utility.XMLSpec.Name`,
`Utility.Tree.forEachDescendant`, `Utility.Tree.Mutation.adoptNode`,
`Element.lookupPrefix` / `lookupNamespaceURI`, `Node.appendChild`) are
modelled from the specification; each such definition says so in its doc
comment.
-/

/-- The DOM node-type tags (`Node.Element`, `Node.Document`, ...). -/
inductive NodeType where
  | element
  | attrNode
  | text
  | cdataSection
  | processingInstruction
  | comment
  | document
  | documentType
  | documentFragment
deriving DecidableEq

/-- Errors thrown by the implementation.  `DOMException.InvalidCharacterError`
etc. become the first four constructors; `jsError s` models a plain
JavaScript `throw s` of a raw string value (as in `querySelector`). -/
inductive DOMErr where
  | invalidCharacterError
  | hierarchyRequestError
  | notFoundError
  | notSupportedError
  | jsError (s : String)
deriving DecidableEq

/-- The payload of one attribute in an element's attribute set (an `Attr`:
owner document, namespace, prefix, local name, value). -/
structure AttrRec where
  owner : Nat
  namespaceURI : Option String
  pfx : Option String
  localName : String
  value : String
deriving DecidableEq

/-- A DOM node.  Each constructor carries its owner-document id first; a
`document` carries its own id (a Document is its own owner).  `shadowRoot`
is kept as a separate constructor because the code tests `instanceof
ShadowRoot`; its node type is `documentFragment` (a ShadowRoot is a
DocumentFragment). -/
inductive XNode where
  | document (docId : Nat) (children : List XNode)
  | documentFragment (owner : Nat) (children : List XNode)
  | shadowRoot (owner : Nat) (children : List XNode)
  | documentType (owner : Nat) (name : String)
  | element (owner : Nat) (namespaceURI : Option String) (pfx : Option String)
      (localName : String) (attributes : List AttrRec) (children : List XNode)
  | attrNode (owner : Nat) (namespaceURI : Option String) (pfx : Option String)
      (localName : String) (value : String)
  | text (owner : Nat) (data : String)
  | cdataSection (owner : Nat) (data : String)
  | comment (owner : Nat) (data : String)
  | processingInstruction (owner : Nat) (target : String) (data : String)

/-- The getter `node.nodeType`. -/
def nodeTypeOf : XNode → NodeType
  | .document _ _ => .document
  | .documentFragment _ _ => .documentFragment
  | .shadowRoot _ _ => .documentFragment
  | .documentType _ _ => .documentType
  | .element _ _ _ _ _ _ => .element
  | .attrNode _ _ _ _ _ => .attrNode
  | .text _ _ => .text
  | .cdataSection _ _ => .cdataSection
  | .comment _ _ => .comment
  | .processingInstruction _ _ _ => .processingInstruction

/-- The getter `node.ownerDocument` as a document id (for a `document`, its own id). -/
def ownerOf : XNode → Nat
  | .document i _ => i
  | .documentFragment o _ => o
  | .shadowRoot o _ => o
  | .documentType o _ => o
  | .element o _ _ _ _ _ => o
  | .attrNode o _ _ _ _ => o
  | .text o _ => o
  | .cdataSection o _ => o
  | .comment o _ => o
  | .processingInstruction o _ _ => o

/-- The getter `node.childNodes` (empty for leaf variants). -/
def childrenOf : XNode → List XNode
  | .document _ cs => cs
  | .documentFragment _ cs => cs
  | .shadowRoot _ cs => cs
  | .element _ _ _ _ _ cs => cs
  | _ => []

/-- The attribute set of a node (empty unless it is an Element). -/
def attrsOfNode : XNode → List AttrRec
  | .element _ _ _ _ atts _ => atts
  | _ => []

/-- The test `node instanceof ShadowRoot`. -/
def isShadowRootNode : XNode → Bool
  | .shadowRoot _ _ => true
  | _ => false

/-- A node handle: the node's tree together with its `_parentNode`
reference, `none` when the node is detached (JavaScript `null`). -/
structure NodeH where
  tree : XNode
  parent : Option Nat

/-- Modelled from the spec: one character of the structural Name grammar —
letters, digits, `-`, `_`, `.`, `:` (the `Utility.XMLSpec.Name` regular
expression itself is not part of the given source). -/
def nameChar (c : Char) : Bool :=
  c.isAlpha || c.isDigit || c = '-' || c = '_' || c = '.' || c = ':'

/-- Modelled from the spec: `localName.match(Utility.XMLSpec.Name)` as a
whole-string test against the Name production (nonempty, every character
from the structural set). -/
def matchesName (s : String) : Bool :=
  !s.isEmpty && s.toList.all nameChar

/-- JavaScript `s.includes(needle)`: `needle` occurs as a contiguous
substring of `s`. -/
def jsIncludes (s : String) (needle : String) : Bool :=
  decide (needle.toList <:+: s.toList)

/-- Method `Document.createElement(localName)`: validate the name, then build a
detached element with null namespace and prefix and no attributes
(`new Element(this, localName, null, null)`). -/
def createElement (docId : Nat) (localName : String) : Except DOMErr XNode :=
  if !matchesName localName then .error .invalidCharacterError
  else .ok (.element docId none none localName [] [])

/-- Method `Document.createAttribute(localName)`: validate the name, then build a
detached attribute node with empty value
(`new Attr(this, null, localName, null, null, buildEmpty)` with value `''`). -/
def createAttribute (docId : Nat) (localName : String) : Except DOMErr XNode :=
  if !matchesName localName then .error .invalidCharacterError
  else .ok (.attrNode docId none none localName "")

/-- Method `Document.createCDATASection(data)`: reject data containing the CDATA
terminator, else build a detached CDATA section. -/
def createCDATASection (docId : Nat) (data : String) : Except DOMErr XNode :=
  if jsIncludes data "]]>" then .error .invalidCharacterError
  else .ok (.cdataSection docId data)

/-- Method `Document.createProcessingInstruction(target, data)`: validate the
target name, reject data containing the PI terminator, else build a
detached processing instruction. -/
def createProcessingInstruction (docId : Nat) (target : String) (data : String) :
    Except DOMErr XNode :=
  if !matchesName target then .error .invalidCharacterError
  else if jsIncludes data "?>" then .error .invalidCharacterError
  else .ok (.processingInstruction docId target data)

/-- Method `Document.createEvent(eventInterface)`: always throws NotSupportedError. -/
def createEvent (eventInterface : String) : Except DOMErr Empty :=
  .error .notSupportedError

/-- Method `Document.createRange()`: always throws NotSupportedError. -/
def createRange : Except DOMErr Empty :=
  .error .notSupportedError

/-- Method `Document.createNodeIterator(root, whatToShow, filter)`: always throws
NotSupportedError (the `NodeFilter` argument is opaque here and modelled as
a number). -/
def createNodeIterator (root : XNode) (whatToShow : Nat) (filter : Option Nat) :
    Except DOMErr Empty :=
  .error .notSupportedError

/-- Method `Document.createTreeWalker(root, whatToShow, filter)`: always throws
NotSupportedError. -/
def createTreeWalker (root : XNode) (whatToShow : Nat) (filter : Option Nat) :
    Except DOMErr Empty :=
  .error .notSupportedError

/-- Method `Document.querySelector(selectors)`: the body is `throw ""` — it throws
a raw empty string, never returning an `Element | null`. -/
def querySelector (selectors : String) : Except DOMErr (Option XNode) :=
  .error (.jsError "")

/-- Method `Document.querySelectorAll(selectors)`: the body is `throw ""`. -/
def querySelectorAll (selectors : String) : Except DOMErr (List XNode) :=
  .error (.jsError "")

/-- Method `Document.getElementById(elementId)`: the body is `return null`. -/
def getElementById (d : XNode) (elementId : String) : Option XNode :=
  none

/-- The `doctype` getter: iterate `childNodes`, return the first child whose
`nodeType` is DocumentType, else null. -/
def doctypeScan : List XNode → Option XNode
  | [] => none
  | c :: rest =>
      if nodeTypeOf c = NodeType.documentType then some c else doctypeScan rest

/-- The `documentElement` getter: iterate `childNodes`, return the first
child whose `nodeType` is Element, else null. -/
def documentElementScan : List XNode → Option XNode
  | [] => none
  | c :: rest =>
      if nodeTypeOf c = NodeType.element then some c else documentElementScan rest

/-- Getter `document.doctype` on a node (scans the current child list). -/
def doctypeOf (d : XNode) : Option XNode :=
  doctypeScan (childrenOf d)

/-- Getter `document.documentElement` on a node (scans the current child list). -/
def documentElementOf (d : XNode) : Option XNode :=
  documentElementScan (childrenOf d)

theorem doctypeScan_eq_find (cs : List XNode) :
    doctypeScan cs = cs.find? (fun c => decide (nodeTypeOf c = NodeType.documentType)) := by
  induction cs with
  | nil => rfl
  | cons c rest ih =>
      by_cases h : nodeTypeOf c = NodeType.documentType <;>
        simp [doctypeScan, List.find?_cons, h, ih]

theorem documentElementScan_eq_find (cs : List XNode) :
    documentElementScan cs = cs.find? (fun c => decide (nodeTypeOf c = NodeType.element)) := by
  induction cs with
  | nil => rfl
  | cons c rest ih =>
      by_cases h : nodeTypeOf c = NodeType.element <;>
        simp [documentElementScan, List.find?_cons, h, ih]

/-- C10: for every document and every id string, `getElementById` returns
null — the core never resolves id lookups. -/
theorem getElementById_always_null : ∀ (d : XNode) (elementId : String),
    getElementById d elementId = none :=
  fun _ _ => rfl

/-- C6: on a Document with any current child list, the `documentElement`
getter returns the first direct child whose variant is Element (null if
none) and the `doctype` getter returns the first direct child whose variant
is DocumentType (null if none); both are functions of the current child
list, so any mutation of the children is reflected on the next access. -/
theorem doc_documentElement_doctype_first_child : ∀ (docId : Nat) (cs : List XNode),
    doctypeOf (XNode.document docId cs)
      = cs.find? (fun c => decide (nodeTypeOf c = NodeType.documentType)) ∧
    documentElementOf (XNode.document docId cs)
      = cs.find? (fun c => decide (nodeTypeOf c = NodeType.element)) :=
  fun docId cs =>
    ⟨doctypeScan_eq_find cs, documentElementScan_eq_find cs⟩

/-- C8: the method `createCDATASection(data)` fails with InvalidCharacterError exactly
when `data` contains the CDATA terminator sequence, and otherwise returns a
new detached CDATASection node holding `data`. -/
theorem createCDATASection_spec : ∀ (docId : Nat) (data : String),
    (createCDATASection docId data = .error DOMErr.invalidCharacterError
      ↔ "]]>".toList <:+: data.toList) ∧
    (¬ ("]]>".toList <:+: data.toList)
      → createCDATASection docId data = .ok (XNode.cdataSection docId data)) := by
  intro docId data
  by_cases h : "]]>".toList <:+: data.toList <;>
    simp [createCDATASection, jsIncludes, h]

theorem createCDATASection_spec_witness :
    ¬ ("]]>".toList <:+: "hello".toList) ∧
    createCDATASection 0 "hello" = .ok (XNode.cdataSection 0 "hello") :=
  ⟨by decide, ((createCDATASection_spec 0 "hello").2 (by decide))⟩

/-- C9: the method `createProcessingInstruction(target, data)` fails with
InvalidCharacterError when the target does not conform to the Name grammar,
or when the data contains the PI terminator sequence; otherwise it returns
a new detached ProcessingInstruction node with that target and data. -/
theorem createProcessingInstruction_spec : ∀ (docId : Nat) (target data : String),
    (matchesName target = false →
      createProcessingInstruction docId target data
        = .error DOMErr.invalidCharacterError) ∧
    (matchesName target = true → ("?>".toList <:+: data.toList) →
      createProcessingInstruction docId target data
        = .error DOMErr.invalidCharacterError) ∧
    (matchesName target = true → ¬ ("?>".toList <:+: data.toList) →
      createProcessingInstruction docId target data
        = .ok (XNode.processingInstruction docId target data)) := by
  intro docId target data
  refine ⟨fun h => ?_, fun h hinc => ?_, fun h hninc => ?_⟩
  · simp [createProcessingInstruction, h]
  · simp [createProcessingInstruction, jsIncludes, h]
    exact hinc
  · simp [createProcessingInstruction, jsIncludes, h]
    exact fun hc => absurd hc hninc

theorem createProcessingInstruction_spec_witness :
    matchesName "xml-stylesheet" = true ∧
    ¬ ("?>".toList <:+: "href".toList) ∧
    createProcessingInstruction 0 "xml-stylesheet" "href"
      = .ok (XNode.processingInstruction 0 "xml-stylesheet" "href") :=
  ⟨by decide, by decide,
    (createProcessingInstruction_spec 0 "xml-stylesheet" "href").2.2 (by decide) (by decide)⟩

/-- C3: any name argument that does not conform to the structural Name
grammar makes `createElement` and `createAttribute` fail with
InvalidCharacterError, creating no node (witnessed at the spaced name
used by the specification's scenario). -/
theorem createElement_createAttribute_name_guard : ∀ (docId : Nat) (s : String),
    matchesName s = false →
    createElement docId s = .error DOMErr.invalidCharacterError ∧
    createAttribute docId s = .error DOMErr.invalidCharacterError := by
  intro docId s h
  exact ⟨by simp [createElement, h], by simp [createAttribute, h]⟩

theorem createElement_createAttribute_name_guard_witness :
    matchesName "in valid" = false ∧
    createElement 0 "in valid" = .error DOMErr.invalidCharacterError ∧
    createAttribute 0 "in valid" = .error DOMErr.invalidCharacterError :=
  ⟨by decide, createElement_createAttribute_name_guard 0 "in valid" (by decide)⟩

/-- C4 counterexample: the method `querySelector` does not fail with NotSupportedError
— its body is `throw ""`, a raw empty-string exception, so the claim that
all six operations fail with NotSupportedError is false at this input. -/
theorem querySelector_not_notSupported_cex :
    querySelector "x" = .error (DOMErr.jsError "") ∧
    DOMErr.jsError "" ≠ DOMErr.notSupportedError :=
  ⟨rfl, by decide⟩

/-- C4 (amended): the methods `createEvent`, `createRange`, `createNodeIterator` and
`createTreeWalker` fail with NotSupportedError for every input and never
return a value; `querySelector` and `querySelectorAll` also never return a
value, but they throw a plain empty-string exception rather than
NotSupportedError. -/
theorem unsupported_surface_spec : ∀ (eventInterface : String) (root : XNode)
    (whatToShow : Nat) (filter : Option Nat) (selectors : String),
    createEvent eventInterface = .error DOMErr.notSupportedError ∧
    createRange = .error DOMErr.notSupportedError ∧
    createNodeIterator root whatToShow filter = .error DOMErr.notSupportedError ∧
    createTreeWalker root whatToShow filter = .error DOMErr.notSupportedError ∧
    querySelector selectors = .error (DOMErr.jsError "") ∧
    querySelectorAll selectors = .error (DOMErr.jsError "") :=
  fun _ _ _ _ _ => ⟨rfl, rfl, rfl, rfl, rfl, rfl⟩

/-- Modelled from the spec: `Element.lookupPrefix(namespace)` (§4.3) for an
element whose `parentElement` is null — exactly the situation of a
`documentElement`, whose parent is the Document: if the element's own
namespace equals `namespace` and it has a non-null prefix, return that
prefix; else scan its attributes for an `xmlns:*` declaration whose value
equals `namespace`, returning the declared prefix; else the recursion to
the null `parentElement` yields null. -/
def lookupPrefixRootEle (ns : String) (e : XNode) : Option String :=
  match e with
  | .element _ ens epfx _ atts _ =>
      if ens = some ns ∧ epfx.isSome then epfx
      else
        match atts.find? (fun a => a.pfx == some "xmlns" && a.value == ns) with
        | some a => some a.localName
        | none => none
  | _ => none

/-- Modelled from the spec: `Element.lookupNamespaceURI(prefix)` (§4.3) for
an element whose `parentElement` is null: if the element's own prefix
equals the argument (both possibly null) and it has a namespace, return it;
else scan its attributes for the declaration named `xmlns` (null argument)
or `xmlns:<argument>`, returning its value; else null. -/
def lookupNamespaceURIRootEle (p : Option String) (e : XNode) : Option String :=
  match e with
  | .element _ ens epfx _ atts _ =>
      if epfx = p ∧ ens.isSome then ens
      else
        match p with
        | none =>
            match atts.find? (fun a => a.pfx == none && a.localName == "xmlns") with
            | some a => some a.value
            | none => none
        | some ps =>
            match atts.find? (fun a => a.pfx == some "xmlns" && a.localName == ps) with
            | some a => some a.value
            | none => none
  | _ => none

/-- Method `Document.lookupPrefix(namespace)`: `if (!namespace) return null`
(JavaScript falsiness covers both null and the empty string), then delegate
to the `documentElement` when there is one, else null. -/
def lookupPrefixDoc (d : XNode) (ns : Option String) : Option String :=
  match ns with
  | none => none
  | some s =>
      if s = "" then none
      else
        match documentElementOf d with
        | some e => lookupPrefixRootEle s e
        | none => none

/-- Method `Document.lookupNamespaceURI(prefix)`: `if (!prefix) prefix = null`
normalises the empty string to null, then delegate to the
`documentElement` when there is one, else null. -/
def lookupNamespaceURIDoc (d : XNode) (p : Option String) : Option String :=
  let pn : Option String := match p with
    | some "" => none
    | x => x
  match documentElementOf d with
  | some e => lookupNamespaceURIRootEle pn e
  | none => none

/-- C7: on a Document, `lookupPrefix` returns null immediately when the
namespace argument is null or empty; otherwise both `lookupPrefix` and
`lookupNamespaceURI` delegate to the document's `documentElement`, and both
return null when the document has no `documentElement`. -/
theorem doc_lookup_delegation : ∀ (d : XNode) (ns : Option String)
    (p : Option String) (s : String) (e : XNode),
    (lookupPrefixDoc d none = none) ∧
    (lookupPrefixDoc d (some "") = none) ∧
    (documentElementOf d = none →
      lookupPrefixDoc d ns = none ∧ lookupNamespaceURIDoc d p = none) ∧
    (documentElementOf d = some e → s ≠ "" →
      lookupPrefixDoc d (some s) = lookupPrefixRootEle s e) ∧
    (documentElementOf d = some e →
      lookupNamespaceURIDoc d p
        = lookupNamespaceURIRootEle
            (match p with | some "" => none | x => x) e) := by
  intro d ns p s e
  refine ⟨rfl, rfl, fun hnone => ⟨?_, ?_⟩, fun hsome hs => ?_, fun hsome => ?_⟩
  · cases ns with
    | none => rfl
    | some s' =>
        by_cases h : s' = "" <;> simp [lookupPrefixDoc, hnone, h]
  · simp [lookupNamespaceURIDoc, hnone]
  · simp [lookupPrefixDoc, hsome, hs]
  · simp [lookupNamespaceURIDoc, hsome]

theorem doc_lookup_delegation_witness :
    documentElementOf (XNode.document 0 [XNode.element 0 (some "u") (some "q") "root" [] []])
      = some (XNode.element 0 (some "u") (some "q") "root" [] []) ∧
    ("u" ≠ "") ∧
    lookupPrefixDoc (XNode.document 0 [XNode.element 0 (some "u") (some "q") "root" [] []])
        (some "u")
      = lookupPrefixRootEle "u" (XNode.element 0 (some "u") (some "q") "root" [] []) :=
  ⟨rfl, by decide,
    ((doc_lookup_delegation
        (XNode.document 0 [XNode.element 0 (some "u") (some "q") "root" [] []])
        none none "u"
        (XNode.element 0 (some "u") (some "q") "root" [] [])).2.2.2.1
      rfl (by decide))⟩

mutual

/-- Modelled from the spec: `Node.cloneNode(deep)` (§4.5) for the variants
whose class bodies are not part of the given source — a shallow clone is a
new node of the same variant, owned by the same owner document, with null
parent, copying the variant-specific payload (an Element also copies its
attribute set); if `deep`, each child is recursively cloned in document
order and appended.  The `document` branch keeps the original id; the fresh
identity taken by `new Document()` in `Document.cloneNode` is modelled
separately by `docCloneNode`, and this branch is unreachable through
`importNode`, which rejects documents. -/
def cloneNode : XNode → Bool → XNode
  | .document i cs, deep => .document i (if deep then cloneList cs deep else [])
  | .documentFragment o cs, deep =>
      .documentFragment o (if deep then cloneList cs deep else [])
  | .shadowRoot o cs, deep => .shadowRoot o (if deep then cloneList cs deep else [])
  | .documentType o nm, _ => .documentType o nm
  | .element o ens epfx ln atts cs, deep =>
      .element o ens epfx ln atts (if deep then cloneList cs deep else [])
  | .attrNode o ens epfx ln v, _ => .attrNode o ens epfx ln v
  | .text o s, _ => .text o s
  | .cdataSection o s, _ => .cdataSection o s
  | .comment o s, _ => .comment o s
  | .processingInstruction o t s, _ => .processingInstruction o t s

/-- Clone every node of a child list in order. -/
def cloneList : List XNode → Bool → List XNode
  | [], _ => []
  | c :: rest, deep => cloneNode c deep :: cloneList rest deep

end

mutual

/-- Modelled from the spec: the owner-document walk shared by `importNode`
and adoption (`Utility.Tree.forEachDescendant` with `self: true` plus the
per-element attribute loop): reassign the owner document of the node
itself, every descendant, and every attribute of every Element. -/
def setOwnersDeep (d : Nat) : XNode → XNode
  | .document _ cs => .document d (setOwnersList d cs)
  | .documentFragment _ cs => .documentFragment d (setOwnersList d cs)
  | .shadowRoot _ cs => .shadowRoot d (setOwnersList d cs)
  | .documentType _ nm => .documentType d nm
  | .element _ ens epfx ln atts cs =>
      .element d ens epfx ln (atts.map (fun a => { a with owner := d }))
        (setOwnersList d cs)
  | .attrNode _ ens epfx ln v => .attrNode d ens epfx ln v
  | .text _ s => .text d s
  | .cdataSection _ s => .cdataSection d s
  | .comment _ s => .comment d s
  | .processingInstruction _ t s => .processingInstruction d t s

/-- Reassign owners over a child list. -/
def setOwnersList (d : Nat) : List XNode → List XNode
  | [] => []
  | c :: rest => setOwnersDeep d c :: setOwnersList d rest

end

mutual

/-- The nodes of a subtree in document order: the node itself followed by
the subtrees of its children. -/
def subtreeNodes : XNode → List XNode
  | .document i cs => .document i cs :: subtreeForest cs
  | .documentFragment o cs => .documentFragment o cs :: subtreeForest cs
  | .shadowRoot o cs => .shadowRoot o cs :: subtreeForest cs
  | .element o ens epfx ln atts cs =>
      .element o ens epfx ln atts cs :: subtreeForest cs
  | n => [n]

/-- The subtree nodes of every tree of a forest, in order. -/
def subtreeForest : List XNode → List XNode
  | [] => []
  | c :: rest => subtreeNodes c ++ subtreeForest rest

end

/-- Forgetting owner-document ids: two nodes with the same erasure are the
same tree up to owner assignment. -/
def eraseOwners (n : XNode) : XNode :=
  setOwnersDeep 0 n

mutual

theorem setOwnersDeep_owners (d : Nat) : (n : XNode) →
    ∀ m ∈ subtreeNodes (setOwnersDeep d n),
      ownerOf m = d ∧ ∀ a ∈ attrsOfNode m, a.owner = d
  | .document i cs => by
      intro m hm
      rw [setOwnersDeep, subtreeNodes, List.mem_cons] at hm
      rcases hm with h | h
      · subst h; exact ⟨rfl, by simp [attrsOfNode]⟩
      · exact setOwnersList_owners d cs m h
  | .documentFragment o cs => by
      intro m hm
      rw [setOwnersDeep, subtreeNodes, List.mem_cons] at hm
      rcases hm with h | h
      · subst h; exact ⟨rfl, by simp [attrsOfNode]⟩
      · exact setOwnersList_owners d cs m h
  | .shadowRoot o cs => by
      intro m hm
      rw [setOwnersDeep, subtreeNodes, List.mem_cons] at hm
      rcases hm with h | h
      · subst h; exact ⟨rfl, by simp [attrsOfNode]⟩
      · exact setOwnersList_owners d cs m h
  | .element o ens epfx ln atts cs => by
      intro m hm
      rw [setOwnersDeep, subtreeNodes, List.mem_cons] at hm
      rcases hm with h | h
      · subst h
        refine ⟨rfl, ?_⟩
        intro a ha
        rw [attrsOfNode, List.mem_map] at ha
        rcases ha with ⟨b, _, hb⟩
        exact hb ▸ rfl
      · exact setOwnersList_owners d cs m h
  | .documentType o nm => by
      intro m hm
      simp only [setOwnersDeep, subtreeNodes, List.mem_singleton] at hm
      subst hm; exact ⟨rfl, by simp [attrsOfNode]⟩
  | .attrNode o ens epfx ln v => by
      intro m hm
      simp only [setOwnersDeep, subtreeNodes, List.mem_singleton] at hm
      subst hm; exact ⟨rfl, by simp [attrsOfNode]⟩
  | .text o s => by
      intro m hm
      simp only [setOwnersDeep, subtreeNodes, List.mem_singleton] at hm
      subst hm; exact ⟨rfl, by simp [attrsOfNode]⟩
  | .cdataSection o s => by
      intro m hm
      simp only [setOwnersDeep, subtreeNodes, List.mem_singleton] at hm
      subst hm; exact ⟨rfl, by simp [attrsOfNode]⟩
  | .comment o s => by
      intro m hm
      simp only [setOwnersDeep, subtreeNodes, List.mem_singleton] at hm
      subst hm; exact ⟨rfl, by simp [attrsOfNode]⟩
  | .processingInstruction o t s => by
      intro m hm
      simp only [setOwnersDeep, subtreeNodes, List.mem_singleton] at hm
      subst hm; exact ⟨rfl, by simp [attrsOfNode]⟩

theorem setOwnersList_owners (d : Nat) : (cs : List XNode) →
    ∀ m ∈ subtreeForest (setOwnersList d cs),
      ownerOf m = d ∧ ∀ a ∈ attrsOfNode m, a.owner = d
  | [] => by
      intro m hm
      rw [setOwnersList, subtreeForest] at hm
      cases hm
  | c :: rest => by
      intro m hm
      rw [setOwnersList, subtreeForest, List.mem_append] at hm
      rcases hm with h | h
      · exact setOwnersDeep_owners d c m h
      · exact setOwnersList_owners d rest m h

end

mutual

theorem setOwnersDeep_erase (d : Nat) : (n : XNode) →
    eraseOwners (setOwnersDeep d n) = eraseOwners n
  | .document i cs => by
      rw [eraseOwners, eraseOwners, setOwnersDeep, setOwnersDeep, setOwnersDeep]
      exact congrArg (XNode.document 0) (setOwnersList_erase d cs)
  | .documentFragment o cs => by
      rw [eraseOwners, eraseOwners, setOwnersDeep, setOwnersDeep, setOwnersDeep]
      exact congrArg (XNode.documentFragment 0) (setOwnersList_erase d cs)
  | .shadowRoot o cs => by
      rw [eraseOwners, eraseOwners, setOwnersDeep, setOwnersDeep, setOwnersDeep]
      exact congrArg (XNode.shadowRoot 0) (setOwnersList_erase d cs)
  | .element o ens epfx ln atts cs => by
      rw [eraseOwners, eraseOwners, setOwnersDeep, setOwnersDeep, setOwnersDeep]
      rw [setOwnersList_erase d cs, List.map_map]
      rfl
  | .documentType o nm => rfl
  | .attrNode o ens epfx ln v => rfl
  | .text o s => rfl
  | .cdataSection o s => rfl
  | .comment o s => rfl
  | .processingInstruction o t s => rfl

theorem setOwnersList_erase (d : Nat) : (cs : List XNode) →
    setOwnersList 0 (setOwnersList d cs) = setOwnersList 0 cs
  | [] => rfl
  | c :: rest => by
      rw [setOwnersList, setOwnersList, setOwnersList]
      have h1 : setOwnersDeep 0 (setOwnersDeep d c) = setOwnersDeep 0 c :=
        setOwnersDeep_erase d c
      rw [h1, setOwnersList_erase d rest]

end

/-- Every node is the first entry of its own subtree listing. -/
theorem self_mem_subtreeNodes (n : XNode) : n ∈ subtreeNodes n := by
  cases n <;> simp [subtreeNodes]

/-- Method `Document.importNode(node, deep)`: reject a Document, or a ShadowRoot,
with NotSupportedError; otherwise clone the node (`node.cloneNode(deep)`)
and walk the clone's entire subtree (`Utility.Tree.forEachDescendant` with
`self: true`, modelled by `setOwnersDeep`) reassigning the owner document —
and, for each Element, the owner of each attribute — to the importing
document.  The clone is returned detached (null parent); the original
value is not touched. -/
def importNode (docId : Nat) (node : XNode) (deep : Bool) : Except DOMErr NodeH :=
  if nodeTypeOf node = NodeType.document then .error .notSupportedError
  else if isShadowRootNode node then .error .notSupportedError
  else .ok ⟨setOwnersDeep docId (cloneNode node deep), none⟩

/-- C1: the method `importNode` fails with NotSupportedError on a Document and on a
ShadowRoot; for every other node it returns the clone `cloneNode(deep)`
with the owner document of the clone itself, of every descendant, and of
every attribute of every Element reassigned to the importing document, the
clone's parent being null; the original node, a pure value here, is
untouched and keeps its owner document and its attachment. -/
theorem importNode_spec : ∀ (docId : Nat) (node : XNode) (deep : Bool),
    (nodeTypeOf node = NodeType.document →
      importNode docId node deep = .error DOMErr.notSupportedError) ∧
    (isShadowRootNode node = true →
      importNode docId node deep = .error DOMErr.notSupportedError) ∧
    (nodeTypeOf node ≠ NodeType.document → isShadowRootNode node = false →
      importNode docId node deep
          = .ok ⟨setOwnersDeep docId (cloneNode node deep), none⟩ ∧
        eraseOwners (setOwnersDeep docId (cloneNode node deep))
          = eraseOwners (cloneNode node deep) ∧
        ∀ m ∈ subtreeNodes (setOwnersDeep docId (cloneNode node deep)),
          ownerOf m = docId ∧ ∀ a ∈ attrsOfNode m, a.owner = docId) := by
  intro docId node deep
  refine ⟨fun h => ?_, fun h => ?_, fun h1 h2 => ⟨?_, ?_, ?_⟩⟩
  · simp [importNode, h]
  · by_cases hd : nodeTypeOf node = NodeType.document <;> simp [importNode, hd, h]
  · simp [importNode, h1, h2]
  · exact setOwnersDeep_erase docId (cloneNode node deep)
  · exact setOwnersDeep_owners docId (cloneNode node deep)

/-- A sample detached element of document 0, carrying one attribute and one
text child. -/
def sampleEle : XNode :=
  XNode.element 0 (some "u") none "e"
    [{ owner := 0, namespaceURI := none, pfx := none, localName := "id", value := "v" }]
    [XNode.text 0 "hi"]

theorem importNode_spec_witness :
    nodeTypeOf sampleEle ≠ NodeType.document ∧
    isShadowRootNode sampleEle = false ∧
    (importNode 1 sampleEle true
        = .ok ⟨setOwnersDeep 1 (cloneNode sampleEle true), none⟩ ∧
      eraseOwners (setOwnersDeep 1 (cloneNode sampleEle true))
        = eraseOwners (cloneNode sampleEle true) ∧
      ∀ m ∈ subtreeNodes (setOwnersDeep 1 (cloneNode sampleEle true)),
        ownerOf m = 1 ∧ ∀ a ∈ attrsOfNode m, a.owner = 1) :=
  ⟨by simp [sampleEle, nodeTypeOf], by simp [sampleEle, isShadowRootNode],
    (importNode_spec 1 sampleEle true).2.2
      (by simp [sampleEle, nodeTypeOf]) (by simp [sampleEle, isShadowRootNode])⟩

/-- Method `Document.adoptNode(node)`: reject a Document with NotSupportedError
and a ShadowRoot with HierarchyRequestError; otherwise run the adoption
mutation (`Utility.Tree.Mutation.adoptNode`, modelled from the spec and
from the earlier inline implementation of this class): detach the node from
its parent when it has one — the attachment context is the pair of sibling
lists around the node, and detaching leaves `before ++ after` as the
parent's children — then, exactly when the node's owner document differs
from the adopting document, reassign the owner of the node, of every
descendant and of every element attribute; the same node is returned,
detached. -/
def adoptNode (docId : Nat) (node : XNode)
    (ctx : Option (List XNode × List XNode)) :
    Except DOMErr (NodeH × Option (List XNode)) :=
  if nodeTypeOf node = NodeType.document then .error .notSupportedError
  else if isShadowRootNode node then .error .hierarchyRequestError
  else
    let newSiblings := ctx.map (fun pr => pr.1 ++ pr.2)
    let adopted := if ownerOf node = docId then node else setOwnersDeep docId node
    .ok (⟨adopted, none⟩, newSiblings)

/-- C2 counterexample: a ShadowRoot is not of the Document variant (its
node type is DocumentFragment), yet `adoptNode` fails on it with
HierarchyRequestError instead of detaching and returning it, so the claim
as stated — every non-Document node is adopted — is false at this input. -/
theorem adoptNode_shadowRoot_cex :
    nodeTypeOf (XNode.shadowRoot 0 []) ≠ NodeType.document ∧
    adoptNode 1 (XNode.shadowRoot 0 []) none
      = .error DOMErr.hierarchyRequestError ∧
    DOMErr.hierarchyRequestError ≠ DOMErr.notSupportedError :=
  ⟨by decide, rfl, by decide⟩

/-- C2 (amended): the method `adoptNode` fails with NotSupportedError on a Document
and with HierarchyRequestError on a ShadowRoot; for every other node it
first detaches the node from its parent if it has one, reassigns the owner
document of the node itself, every descendant, and every attribute of
every Element in the subtree to the adopting document if and only if the
node's current owner document differs from it, and returns the same node —
identical up to owner assignment, no copy — with null parent and the
adopting document as owner. -/
theorem adoptNode_spec : ∀ (docId : Nat) (node : XNode)
    (ctx : Option (List XNode × List XNode)),
    (nodeTypeOf node = NodeType.document →
      adoptNode docId node ctx = .error DOMErr.notSupportedError) ∧
    (nodeTypeOf node ≠ NodeType.document → isShadowRootNode node = true →
      adoptNode docId node ctx = .error DOMErr.hierarchyRequestError) ∧
    (nodeTypeOf node ≠ NodeType.document → isShadowRootNode node = false →
      ∃ adopted,
        adoptNode docId node ctx
            = .ok (⟨adopted, none⟩, ctx.map (fun pr => pr.1 ++ pr.2)) ∧
          eraseOwners adopted = eraseOwners node ∧
          ownerOf adopted = docId ∧
          (ownerOf node = docId → adopted = node) ∧
          (ownerOf node ≠ docId →
            ∀ m ∈ subtreeNodes adopted,
              ownerOf m = docId ∧ ∀ a ∈ attrsOfNode m, a.owner = docId)) := by
  intro docId node ctx
  refine ⟨fun h => ?_, fun h1 h2 => ?_, fun h1 h2 => ?_⟩
  · simp [adoptNode, h]
  · simp [adoptNode, h1, h2]
  · by_cases ho : ownerOf node = docId
    · refine ⟨node, ?_, rfl, ho, fun _ => rfl, fun hne => absurd ho hne⟩
      simp [adoptNode, h1, h2, ho]
    · refine ⟨setOwnersDeep docId node, ?_, setOwnersDeep_erase docId node, ?_,
        fun hc => absurd hc ho, fun _ => setOwnersDeep_owners docId node⟩
      · simp [adoptNode, h1, h2, ho]
      · exact (setOwnersDeep_owners docId node _
          (self_mem_subtreeNodes (setOwnersDeep docId node))).1

/-- A sample attachment context: one comment sibling before, one text
sibling after. -/
def sampleCtx : Option (List XNode × List XNode) :=
  some ([XNode.comment 0 "a"], [XNode.text 0 "b"])

theorem adoptNode_spec_witness :
    nodeTypeOf (XNode.text 0 "x") ≠ NodeType.document ∧
    isShadowRootNode (XNode.text 0 "x") = false ∧
    (∃ adopted,
      adoptNode 1 (XNode.text 0 "x") sampleCtx
          = .ok (⟨adopted, none⟩, sampleCtx.map (fun pr => pr.1 ++ pr.2)) ∧
        eraseOwners adopted = eraseOwners (XNode.text 0 "x") ∧
        ownerOf adopted = 1 ∧
        (ownerOf (XNode.text 0 "x") = 1 → adopted = XNode.text 0 "x") ∧
        (ownerOf (XNode.text 0 "x") ≠ 1 →
          ∀ m ∈ subtreeNodes adopted,
            ownerOf m = 1 ∧ ∀ a ∈ attrsOfNode m, a.owner = 1)) :=
  ⟨by decide, rfl,
    (adoptNode_spec 1 (XNode.text 0 "x") sampleCtx).2.2 (by decide) rfl⟩

/-- Is the node's variant a permitted direct child of a Document (Element,
ProcessingInstruction, Comment, DocumentType — §4.2)? -/
def docChildAllowed (n : XNode) : Bool :=
  match nodeTypeOf n with
  | .element => true
  | .processingInstruction => true
  | .comment => true
  | .documentType => true
  | _ => false

/-- Modelled from the spec: pre-insertion validity (§4.2) of one
non-fragment node under a Document parent currently holding children `cs`,
followed by the append itself: the variant must be a permitted Document
child, an Element is rejected when a documentElement is already present,
and a DocumentType when a doctype is already present. -/
def docCheckOne (cs : List XNode) (n : XNode) : Except DOMErr (List XNode) :=
  if !docChildAllowed n then .error .hierarchyRequestError
  else if nodeTypeOf n == NodeType.element
      && cs.any (fun c => nodeTypeOf c == NodeType.element) then
    .error .hierarchyRequestError
  else if nodeTypeOf n == NodeType.documentType
      && cs.any (fun c => nodeTypeOf c == NodeType.documentType) then
    .error .hierarchyRequestError
  else .ok (cs ++ [n])

/-- Modelled from the spec: `appendChild` on a Document parent
(`insertBefore(node, null)` with pre-insertion validity, §4.2).  A
DocumentFragment hands over its children one by one, each checked as
above; every other variant goes through `docCheckOne`.  The cycle check of
§4.2 needs node identity and is omitted: every node appended here is a
freshly produced clone. -/
def appendChildDoc (cs : List XNode) (n : XNode) : Except DOMErr (List XNode) :=
  match n with
  | .documentFragment _ fcs => fcs.foldlM docCheckOne cs
  | _ => docCheckOne cs n

/-- Method `Document.cloneNode(deep)`: allocate a fresh empty Document
(`new Document()`, identity `fresh`, detached, so null parent); if `deep`,
clone each child in document order and append each clone
(`clonedSelf.appendChild(child.cloneNode(deep))`). -/
def docCloneNode (fresh : Nat) (cs : List XNode) (deep : Bool) :
    Except DOMErr NodeH :=
  if deep then
    match cs.foldlM (fun acc c => appendChildDoc acc (cloneNode c deep)) [] with
    | .ok ds => .ok ⟨XNode.document fresh ds, none⟩
    | .error e => .error e
  else .ok ⟨XNode.document fresh [], none⟩

/-- Cloning never changes the variant tag. -/
theorem cloneNode_nodeType (c : XNode) (deep : Bool) :
    nodeTypeOf (cloneNode c deep) = nodeTypeOf c := by
  cases c <;> simp [cloneNode, nodeTypeOf]

/-- Cloning never changes admissibility as a Document child. -/
theorem cloneNode_docChildAllowed (c : XNode) (deep : Bool) :
    docChildAllowed (cloneNode c deep) = docChildAllowed c := by
  rw [docChildAllowed, docChildAllowed, cloneNode_nodeType]

/-- On a node admissible as a Document child (hence never a
DocumentFragment), `appendChildDoc` is just the single-node check. -/
theorem appendChildDoc_of_allowed (cs : List XNode) (n : XNode)
    (h : docChildAllowed n = true) : appendChildDoc cs n = docCheckOne cs n := by
  cases n <;> simp_all [docChildAllowed, nodeTypeOf, appendChildDoc]

/-- The single-node check succeeds and appends when the variant is
admissible and no conflicting Element / DocumentType child is present. -/
theorem docCheckOne_ok (acc : List XNode) (n : XNode)
    (hallow : docChildAllowed n = true)
    (he : nodeTypeOf n = NodeType.element →
      acc.countP (fun c => nodeTypeOf c == NodeType.element) = 0)
    (hd : nodeTypeOf n = NodeType.documentType →
      acc.countP (fun c => nodeTypeOf c == NodeType.documentType) = 0) :
    docCheckOne acc n = .ok (acc ++ [n]) := by
  have hA : (nodeTypeOf n == NodeType.element
      && acc.any (fun c => nodeTypeOf c == NodeType.element)) = false := by
    by_cases h : nodeTypeOf n = NodeType.element
    · have h0 := he h
      have hany : acc.any (fun c => nodeTypeOf c == NodeType.element) = false := by
        rw [List.any_eq_false]
        intro c hc
        have := List.countP_eq_zero.mp h0 c hc
        simpa using this
      simp [hany]
    · simp [h]
  have hB : (nodeTypeOf n == NodeType.documentType
      && acc.any (fun c => nodeTypeOf c == NodeType.documentType)) = false := by
    by_cases h : nodeTypeOf n = NodeType.documentType
    · have h0 := hd h
      have hany : acc.any (fun c => nodeTypeOf c == NodeType.documentType) = false := by
        rw [List.any_eq_false]
        intro c hc
        have := List.countP_eq_zero.mp h0 c hc
        simpa using this
      simp [hany]
    · simp [h]
  rw [docCheckOne, hallow, hA, hB]
  simp

/-- Folding validated appends of the cloned children over a Document whose
invariant holds reproduces the clones in order. -/
theorem docClone_fold (deep : Bool) : ∀ (cs : List XNode) (acc : List XNode),
    (∀ c ∈ cs, docChildAllowed c = true) →
    acc.countP (fun c => nodeTypeOf c == NodeType.element)
      + cs.countP (fun c => nodeTypeOf c == NodeType.element) ≤ 1 →
    acc.countP (fun c => nodeTypeOf c == NodeType.documentType)
      + cs.countP (fun c => nodeTypeOf c == NodeType.documentType) ≤ 1 →
    cs.foldlM (fun a c => appendChildDoc a (cloneNode c deep)) acc
      = .ok (acc ++ cs.map (fun c => cloneNode c deep)) := by
  intro cs
  induction cs with
  | nil =>
      intro acc _ _ _
      simp only [List.foldlM_nil, List.map_nil, List.append_nil]
      rfl
  | cons c rest ih =>
      intro acc hall he hd
      have hallc : docChildAllowed c = true := hall c (List.mem_cons_self c rest)
      have hstep : appendChildDoc acc (cloneNode c deep)
          = .ok (acc ++ [cloneNode c deep]) := by
        rw [appendChildDoc_of_allowed _ _
          ((cloneNode_docChildAllowed c deep).trans hallc)]
        refine docCheckOne_ok acc (cloneNode c deep) ?_ ?_ ?_
        · exact (cloneNode_docChildAllowed c deep).trans hallc
        · intro hel
          rw [cloneNode_nodeType] at hel
          rw [List.countP_cons, hel] at he
          simp at he
          omega
        · intro hdt
          rw [cloneNode_nodeType] at hdt
          rw [List.countP_cons, hdt] at hd
          simp at hd
          omega
      rw [List.foldlM_cons, hstep]
      have hrec := ih (acc ++ [cloneNode c deep])
        (fun x hx => hall x (List.mem_cons_of_mem c hx)) ?_ ?_
      · simpa using hrec
      · have h1 : List.countP (fun x => nodeTypeOf x == NodeType.element)
              [cloneNode c deep]
            = List.countP (fun x => nodeTypeOf x == NodeType.element) [c] := by
          simp only [List.countP_cons, List.countP_nil, cloneNode_nodeType]
        have hsplit : List.countP (fun x => nodeTypeOf x == NodeType.element) (c :: rest)
            = List.countP (fun x => nodeTypeOf x == NodeType.element) [c]
              + List.countP (fun x => nodeTypeOf x == NodeType.element) rest := by
          simp only [List.countP_cons, List.countP_nil]
          omega
        rw [hsplit] at he
        rw [List.countP_append, h1]
        omega
      · have h1 : List.countP (fun x => nodeTypeOf x == NodeType.documentType)
              [cloneNode c deep]
            = List.countP (fun x => nodeTypeOf x == NodeType.documentType) [c] := by
          simp only [List.countP_cons, List.countP_nil, cloneNode_nodeType]
        have hsplit : List.countP (fun x => nodeTypeOf x == NodeType.documentType) (c :: rest)
            = List.countP (fun x => nodeTypeOf x == NodeType.documentType) [c]
              + List.countP (fun x => nodeTypeOf x == NodeType.documentType) rest := by
          simp only [List.countP_cons, List.countP_nil]
          omega
        rw [hsplit] at hd
        rw [List.countP_append, h1]
        omega

/-- C5: `cloneNode(deep)` on a Document (whose child list satisfies the
Document invariant of §3: only permitted child variants, at most one
Element, at most one DocumentType) returns a new Document node with null
parent; when `deep` is true each child is recursively cloned in document
order and the clones are appended in that order, and when `deep` is false
the clone has no children. -/
theorem document_cloneNode_spec : ∀ (fresh : Nat) (cs : List XNode),
    (∀ c ∈ cs, docChildAllowed c = true) →
    cs.countP (fun c => nodeTypeOf c == NodeType.element) ≤ 1 →
    cs.countP (fun c => nodeTypeOf c == NodeType.documentType) ≤ 1 →
    docCloneNode fresh cs true
        = .ok ⟨XNode.document fresh (cs.map (fun c => cloneNode c true)), none⟩ ∧
    docCloneNode fresh cs false = .ok ⟨XNode.document fresh [], none⟩ := by
  intro fresh cs hall he hd
  constructor
  · rw [docCloneNode]
    rw [docClone_fold true cs [] hall (by simpa using he) (by simpa using hd)]
    simp
  · rfl

/-- A sample Document child list satisfying the invariant: a doctype, a
comment, and one element with a text child. -/
def sampleDocChildren : List XNode :=
  [XNode.documentType 0 "html", XNode.comment 0 "c",
    XNode.element 0 none none "root" [] [XNode.text 0 "t"]]

theorem document_cloneNode_spec_witness :
    (∀ c ∈ sampleDocChildren, docChildAllowed c = true) ∧
    sampleDocChildren.countP (fun c => nodeTypeOf c == NodeType.element) ≤ 1 ∧
    sampleDocChildren.countP (fun c => nodeTypeOf c == NodeType.documentType) ≤ 1 ∧
    (docCloneNode 1 sampleDocChildren true
        = .ok ⟨XNode.document 1
            (sampleDocChildren.map (fun c => cloneNode c true)), none⟩ ∧
      docCloneNode 1 sampleDocChildren false
        = .ok ⟨XNode.document 1 [], none⟩) :=
  ⟨by decide, by decide, by decide,
    document_cloneNode_spec 1 sampleDocChildren (by decide) (by decide) (by decide)⟩
